import Mathlib

/-!
Verification of the sleep-schedule planner.

The repository is a client-side baby sleep-schedule planner.  The logical
core is embedded here:

* `Page` — the canonical single-file app `src/app/page.tsx`: the schedule
  generator (`generateSchedule` and its age-band helpers), the drag-gesture
  state update (the `setSchedule` body of `handleMouseMove`, embedded as
  `Page.dragUpdate`), and the 12-hour formatter `Page.formatTime`.
* `Lib` — the library variant `src/lib/schedule.ts`: `parseTime` and its
  12-hour `formatTime`.
* `Clock` — the clock-face variant: the 24-hour formatter `formatTime24`.
* `Rigid` — the rigid-shift drag variant, whose wake drag translates the
  whole schedule by the drag delta.

Modelling conventions: JavaScript numbers are embedded as `Int` (all the
arithmetic in these files is integer arithmetic on minute offsets);
JavaScript strings are embedded as `List Char`; the JavaScript remainder
operator (which takes the sign of the dividend) is `jsRem`;
`Math.floor(x / k)` for a positive literal `k` is Lean's `x / k`
(`Int.ediv`, which rounds toward negative infinity); array indexing
`naps[i]` is `List.getD` (the theorems carry the index-in-bounds
hypotheses under which the original code runs), and the in-place element
assignment `naps[i] = …` is `List.set`.
-/

/-- JavaScript remainder `a % b` for a positive modulus `b`: the result
takes the sign of the dividend, unlike Lean's `Int.emod`. -/
def jsRem (a b : Int) : Int :=
  if a < 0 then -((-a) % b) else a % b

/-- Decimal digit character for `d < 10`, as produced by JavaScript
`Number.prototype.toString`. -/
def digitChar (d : Nat) : Char := Char.ofNat (48 + d)

/-- Fuel-driven digit printer; the fuel only bounds the recursion depth
and any fuel of at least `n` produces the decimal digits of `n`. -/
def natToStringAux : Nat → Nat → List Char
  | 0, n => [digitChar n]
  | fuel + 1, n =>
      if n < 10 then [digitChar n]
      else natToStringAux fuel (n / 10) ++ [digitChar (n % 10)]

/-- Decimal digit string of a natural number, as produced by JavaScript
`Number.prototype.toString` on a nonnegative integer. -/
def natToString (n : Nat) : List Char := natToStringAux n n

/-- Decimal string of an integer, as produced by JavaScript
`Number.prototype.toString` (a leading minus sign for negative values). -/
def intToString (i : Int) : List Char :=
  if i < 0 then '-' :: natToString (-i).toNat else natToString i.toNat

/-- JavaScript `s.padStart(2, "0")`: left-pad with zeros to length 2. -/
def jsPadStart2 (s : List Char) : List Char :=
  if s.length < 2 then List.replicate (2 - s.length) '0' ++ s else s

/-- Test for an ASCII decimal digit. -/
def isDigitChar (c : Char) : Bool := '0' ≤ c && c ≤ '9'

/-- Accumulating decimal parser over a character list; fails (returns
`none`) at the first non-digit character. -/
def parseDigitsAux : Nat → List Char → Option Nat
  | acc, [] => some acc
  | acc, c :: rest =>
      if isDigitChar c then parseDigitsAux (10 * acc + (c.toNat - 48)) rest else none

/-- JavaScript `Number(s)` restricted to the string shapes this codebase
feeds it: the empty string is 0, an optional leading minus sign followed by
decimal digits is a signed integer, and anything else (such as a string
with an embedded space) is NaN, modelled as `none`. -/
def jsNumber (s : List Char) : Option Int :=
  match s with
  | [] => some 0
  | c :: rest =>
      if c = '-' then
        if rest.isEmpty then none
        else (parseDigitsAux 0 rest).map (fun n => -(n : Int))
      else (parseDigitsAux 0 (c :: rest)).map (fun n => (n : Int))

/-- JavaScript `s.split(c)` for a single-character separator. -/
def splitOnChar (c : Char) : List Char → List (List Char)
  | [] => [[]]
  | x :: xs =>
      if x = c then [] :: splitOnChar c xs
      else
        match splitOnChar c xs with
        | [] => [[x]]
        | h :: t => (x :: h) :: t

/-- A nap interval, in minutes from midnight (`interface NapBlock`). -/
structure NapBlock where
  startMinutes : Int
  endMinutes : Int
deriving DecidableEq

/-- The schedule state (`interface Schedule`). -/
structure Schedule where
  wakeTime : Int
  bedtime : Int
  naps : List NapBlock
deriving DecidableEq

/-- Array indexing `naps[i]` under the in-bounds hypotheses carried by the
theorems; the default value is never reached there. -/
def napAt (naps : List NapBlock) (i : Nat) : NapBlock :=
  naps.getD i ⟨0, 0⟩

/-- Identity of the dragged boundary, from the `dragging` state:
`{ type: "wake" | "bedtime" | "napStart" | "napEnd" | "napMove",
   index?, offset? }`. -/
inductive DragType where
  | wake : DragType
  | bedtime : DragType
  | napStart : Nat → DragType
  | napEnd : Nat → DragType
  | napMove : Nat → Int → DragType
deriving DecidableEq

namespace Page

/-- Awake-window range by age band (`getAwakeWindowRange`). -/
def getAwakeWindowRange (ageMonths : Int) : Int × Int :=
  if ageMonths < 3 then (45, 60)
  else if ageMonths < 6 then (90, 150)
  else if ageMonths < 9 then (120, 180)
  else if ageMonths < 12 then (180, 240)
  else (180, 300)

/-- Representative awake window: `Math.round((range.min + range.max) / 2)`.
For an integer sum `s`, `Math.round(s / 2)` (rounding half toward positive
infinity) is `(s + 1) / 2` with floor division. -/
def getAwakeWindow (ageMonths : Int) : Int :=
  ((getAwakeWindowRange ageMonths).1 + (getAwakeWindowRange ageMonths).2 + 1) / 2

/-- Nap duration by age band; the last nap is a shorter catnap
(`getNapDuration`). -/
def getNapDuration (ageMonths : Int) (napNumber totalNaps : Nat) : Int :=
  let isLastNap := napNumber == totalNaps
  if ageMonths < 3 then (if isLastNap then 30 else 45)
  else if ageMonths < 6 then (if isLastNap then 30 else 60)
  else if ageMonths < 9 then (if isLastNap then 30 else 75)
  else (if isLastNap then 30 else 90)

/-- Loop body of `generateSchedule`: with `remaining` naps still to place
(so the next nap number is `totalNaps - remaining + 1`), walk forward from
`currentTime` by the awake window to each nap start and by the nap
duration to each nap end; returns the nap list and the final current
time (the last nap's end). -/
def genNaps (ageMonths awakeWindow : Int) (totalNaps : Nat) :
    Nat → Int → List NapBlock × Int
  | 0, currentTime => ([], currentTime)
  | r + 1, currentTime =>
      let napStart := currentTime + awakeWindow
      let napEnd := napStart + getNapDuration ageMonths (totalNaps - r) totalNaps
      let rest := genNaps ageMonths awakeWindow totalNaps r napEnd
      (⟨napStart, napEnd⟩ :: rest.1, rest.2)

/-- Schedule generator (`generateSchedule`): walk forward from the wake
time, then add one more awake window and cap the bedtime at 22:00
(`Math.min(currentTime, 22 * 60)`). -/
def generateSchedule (ageMonths : Int) (numNaps : Nat) (wakeTime : Int) : Schedule :=
  let awakeWindow := getAwakeWindow ageMonths
  let result := genNaps ageMonths awakeWindow numNaps numNaps wakeTime
  { wakeTime := wakeTime
    bedtime := min (result.2 + awakeWindow) (22 * 60)
    naps := result.1 }

/-- The 12-hour formatter of `page.tsx`: hours from the normalized minute
of day, minutes from `((minutes % 60) + 60) % 60`, display hours folded
into 1..12 with an AM/PM period. -/
def formatTime (minutes : Int) : List Char :=
  let hours := jsRem (jsRem minutes 1440 + 1440) 1440 / 60
  let mins := jsRem (jsRem minutes 60 + 60) 60
  let period := if hours ≥ 12 then ['P', 'M'] else ['A', 'M']
  let displayHours := if hours = 0 then 12 else if hours > 12 then hours - 12 else hours
  intToString displayHours ++ ':' :: jsPadStart2 (intToString mins) ++ ' ' :: period

/-- Drag-gesture state update: the `setSchedule` body of `handleMouseMove`
in `page.tsx`, given the snapped pointer minute value.  Each branch clamps
the dragged boundary against its neighbours (gap 30 between sleep periods,
minimum nap length 15) and writes back a single field. -/
def dragUpdate (prev : Schedule) (drag : DragType) (minutes : Int) : Schedule :=
  match drag with
  | DragType.wake =>
      let maxWake := if prev.naps.length = 0 then prev.bedtime - 60
                     else (napAt prev.naps 0).startMinutes - 30
      { prev with wakeTime := min minutes maxWake }
  | DragType.bedtime =>
      let minBedtime := if prev.naps.length = 0 then prev.wakeTime + 60
                        else (napAt prev.naps (prev.naps.length - 1)).endMinutes + 30
      { prev with bedtime := max minBedtime minutes }
  | DragType.napStart i =>
      let nap := napAt prev.naps i
      let minStart := if i = 0 then prev.wakeTime + 30
                      else (napAt prev.naps (i - 1)).endMinutes + 30
      let maxStart := nap.endMinutes - 15
      { prev with naps := prev.naps.set i ⟨max minStart (min maxStart minutes), nap.endMinutes⟩ }
  | DragType.napEnd i =>
      let nap := napAt prev.naps i
      let minEnd := nap.startMinutes + 15
      let maxEnd := if i < prev.naps.length - 1
                    then (napAt prev.naps (i + 1)).startMinutes - 30
                    else prev.bedtime - 30
      { prev with naps := prev.naps.set i ⟨nap.startMinutes, max minEnd (min maxEnd minutes)⟩ }
  | DragType.napMove i offset =>
      let nap := napAt prev.naps i
      let duration := nap.endMinutes - nap.startMinutes
      let newStart := minutes - offset
      let minStart := if i = 0 then prev.wakeTime + 30
                      else (napAt prev.naps (i - 1)).endMinutes + 30
      let maxEnd := if i < prev.naps.length - 1
                    then (napAt prev.naps (i + 1)).startMinutes - 30
                    else prev.bedtime - 30
      let maxStart := maxEnd - duration
      let clampedStart := max minStart (min maxStart newStart)
      { prev with naps := prev.naps.set i ⟨clampedStart, clampedStart + duration⟩ }

end Page

namespace Lib

/-- Time parser of `src/lib/schedule.ts`: split on a colon and convert the
first two pieces with `Number`; a piece that is not a plain integer makes
the whole result NaN (`none`). -/
def parseTime (time : List Char) : Option Int :=
  match (splitOnChar ':' time).map jsNumber with
  | some hours :: some mins :: _ => some (hours * 60 + mins)
  | _ => none

/-- The 12-hour formatter of `src/lib/schedule.ts`: normalizes the minute
offset into a day first, then formats. -/
def formatTime (minutes : Int) : List Char :=
  let normalizedMinutes := jsRem (jsRem minutes 1440 + 1440) 1440
  let hours := normalizedMinutes / 60
  let mins := jsRem normalizedMinutes 60
  let period := if hours ≥ 12 then ['P', 'M'] else ['A', 'M']
  let displayHours := if hours = 0 then 12 else if hours > 12 then hours - 12 else hours
  intToString displayHours ++ ':' :: jsPadStart2 (intToString mins) ++ ' ' :: period

end Lib

namespace Clock

/-- The 24-hour formatter of the clock-face variant:
`Math.floor(minutes / 60) % 24` zero-padded, a colon, `minutes % 60`
zero-padded. -/
def formatTime24 (minutes : Int) : List Char :=
  jsPadStart2 (intToString (jsRem (minutes / 60) 24)) ++
    ':' :: jsPadStart2 (intToString (jsRem minutes 60))

end Clock

namespace Rigid

/-- Drag-gesture state update of the rigid-shift variant: a wake drag
translates the whole schedule by `delta = minutes - wakeTime`; bedtime,
nap-start and nap-end drags clamp as in the canonical variant; there is no
`napMove` branch, so that drag type falls through and leaves the schedule
unchanged. -/
def dragUpdate (prev : Schedule) (drag : DragType) (minutes : Int) : Schedule :=
  match drag with
  | DragType.wake =>
      let delta := minutes - prev.wakeTime
      { wakeTime := minutes
        bedtime := prev.bedtime + delta
        naps := prev.naps.map fun nap =>
          ⟨nap.startMinutes + delta, nap.endMinutes + delta⟩ }
  | DragType.bedtime =>
      let minBedtime := if prev.naps.length = 0 then prev.wakeTime + 60
                        else (napAt prev.naps (prev.naps.length - 1)).endMinutes + 30
      { prev with bedtime := max minBedtime minutes }
  | DragType.napStart i =>
      let nap := napAt prev.naps i
      let minStart := if i = 0 then prev.wakeTime + 30
                      else (napAt prev.naps (i - 1)).endMinutes + 30
      let maxStart := nap.endMinutes - 15
      { prev with naps := prev.naps.set i ⟨max minStart (min maxStart minutes), nap.endMinutes⟩ }
  | DragType.napEnd i =>
      let nap := napAt prev.naps i
      let minEnd := nap.startMinutes + 15
      let maxEnd := if i < prev.naps.length - 1
                    then (napAt prev.naps (i + 1)).startMinutes - 30
                    else prev.bedtime - 30
      { prev with naps := prev.naps.set i ⟨nap.startMinutes, max minEnd (min maxEnd minutes)⟩ }
  | DragType.napMove _ _ => prev

end Rigid

/-- Boundary list of a nap list: start and end of each nap in order. -/
def napBoundaryList : List NapBlock → List Int
  | [] => []
  | nap :: rest => nap.startMinutes :: nap.endMinutes :: napBoundaryList rest

/-- All boundaries of a schedule in display order:
wake, then each nap's start and end, then bedtime. -/
def scheduleBoundaries (s : Schedule) : List Int :=
  s.wakeTime :: (napBoundaryList s.naps ++ [s.bedtime])

/-- Boolean test for strict chronological ordering of a boundary list. -/
def strictlyIncreasingB : List Int → Bool
  | [] => true
  | [_] => true
  | x :: y :: rest => decide (x < y) && strictlyIncreasingB (y :: rest)

/-- Strict chronological ordering of a boundary list: every element is
strictly smaller than the next. -/
def strictlyIncreasing (l : List Int) : Prop :=
  strictlyIncreasingB l = true

instance (l : List Int) : Decidable (strictlyIncreasing l) :=
  inferInstanceAs (Decidable (strictlyIncreasingB l = true))

/-- The boundary that precedes nap `i`: the wake time for the first nap,
the previous nap's end otherwise. -/
def prevBoundaryOf (s : Schedule) (i : Nat) : Int :=
  if i = 0 then s.wakeTime else (napAt s.naps (i - 1)).endMinutes

/-- Invariants of section 3 of the specification for a variant with a
minimum gap `g` between sleep periods and minimum nap length `sep`:
every nap starts at least `g` after the previous boundary (wake time for
the first nap, the previous nap's end otherwise), every nap lasts at
least `sep`, and bedtime is at least `g` after the last nap's end (for a
schedule without naps, merely after the wake time). -/
def scheduleInv (g sep : Int) (s : Schedule) : Prop :=
  (∀ i, i < s.naps.length →
      prevBoundaryOf s i + g ≤ (napAt s.naps i).startMinutes) ∧
  (∀ i, i < s.naps.length →
      (napAt s.naps i).startMinutes + sep ≤ (napAt s.naps i).endMinutes) ∧
  (if s.naps.length = 0 then s.wakeTime < s.bedtime
   else (napAt s.naps (s.naps.length - 1)).endMinutes + g ≤ s.bedtime)

instance (g sep : Int) (s : Schedule) : Decidable (scheduleInv g sep s) := by
  unfold scheduleInv; infer_instance

/-- Validity of the index carried by a nap drag; the boundary drags carry
no index.  The original code indexes `naps[dragging.index]` directly and
is only ever invoked with an index of an existing nap block. -/
def dragIndexValid (s : Schedule) : DragType → Prop
  | DragType.napStart i => i < s.naps.length
  | DragType.napEnd i => i < s.naps.length
  | DragType.napMove i _ => i < s.naps.length
  | _ => True

instance (s : Schedule) : (d : DragType) → Decidable (dragIndexValid s d)
  | DragType.wake => isTrue trivial
  | DragType.bedtime => isTrue trivial
  | DragType.napStart i => Nat.decLt i s.naps.length
  | DragType.napEnd i => Nat.decLt i s.naps.length
  | DragType.napMove i _ => Nat.decLt i s.naps.length

/-- Current position of the dragged boundary: the pointer minute value at
which the drag leaves that boundary where it is (for a whole-nap move the
pointer sits at the grab offset from the nap's start). -/
def currentBoundaryPos (s : Schedule) : DragType → Int
  | DragType.wake => s.wakeTime
  | DragType.bedtime => s.bedtime
  | DragType.napStart i => (napAt s.naps i).startMinutes
  | DragType.napEnd i => (napAt s.naps i).endMinutes
  | DragType.napMove i offset => (napAt s.naps i).startMinutes + offset

/-- Clamp of `v` into `[lo, hi]`, as the code computes it:
`Math.max(lo, Math.min(hi, v))`. -/
def clampTo (lo hi v : Int) : Int := max lo (min hi v)

/-- The boundary that follows nap `i` from the viewpoint of a nap-end
drag: the next nap's start when a next nap exists, bedtime otherwise. -/
def nextBoundaryOf (s : Schedule) (i : Nat) : Int :=
  if i < s.naps.length - 1 then (napAt s.naps (i + 1)).startMinutes else s.bedtime

/-- Example schedule used by the witness theorems: the app's initial
schedule `generateSchedule(6, 3, 450)` written out. -/
def sampleSchedule : Schedule :=
  { wakeTime := 450, bedtime := 1230
    naps := [⟨600, 675⟩, ⟨825, 900⟩, ⟨1050, 1080⟩] }

theorem napAt_set_self {l : List NapBlock} {i : Nat} {x : NapBlock}
    (h : i < l.length) : napAt (l.set i x) i = x := by
  simp [napAt, List.getD_eq_getElem?_getD, List.getElem?_set_eq_of_lt x h]

theorem napAt_set_ne {l : List NapBlock} {i j : Nat} {x : NapBlock}
    (h : j ≠ i) : napAt (l.set i x) j = napAt l j := by
  simp [napAt, List.getD_eq_getElem?_getD, List.getElem?_set_ne (Ne.symm h)]

theorem set_napAt_self : ∀ (l : List NapBlock) (i : Nat), i < l.length →
    l.set i (napAt l i) = l := by
  intro l
  induction l with
  | nil => intro i h; simp at h
  | cons a t ih =>
      intro i h
      cases i with
      | zero => rfl
      | succ n =>
          have h' : n < t.length := by
            simpa using Nat.lt_of_succ_lt_succ h
          show a :: t.set n (napAt t n) = a :: t
          rw [ih n h']

theorem genNaps_length (a aw : Int) (tot : Nat) :
    ∀ (r : Nat) (t : Int), (Page.genNaps a aw tot r t).1.length = r := by
  intro r
  induction r with
  | zero => intro t; rfl
  | succ n ih => intro t; simp [Page.genNaps, ih]

/-- C9: `generateSchedule` returns exactly `numNaps` nap blocks, and every
drag update preserves the number of naps; the nap count changes only when
the schedule is regenerated wholesale. -/
theorem generate_and_drag_nap_count (a : Int) (n : Nat) (w : Int)
    (s : Schedule) (d : DragType) (m : Int) :
    (Page.generateSchedule a n w).naps.length = n ∧
    (Page.dragUpdate s d m).naps.length = s.naps.length := by
  refine ⟨?_, ?_⟩
  · simp [Page.generateSchedule, genNaps_length]
  · cases d <;> simp [Page.dragUpdate]

/-- C3: `generateSchedule 6 3 450` produces naps `[600, 675]`, `[825, 900]`,
`[1050, 1080]` and bedtime 1230; the 6-month band gives awake window 150,
non-final naps of 75 minutes and a final catnap of 30 minutes, the walk
sums to 1230, and 1230 is below the 22:00 ceiling so no clamping occurs. -/
theorem generateSchedule_example_6_3_450 :
    Page.generateSchedule 6 3 450 =
      { wakeTime := 450, bedtime := 1230
        naps := [⟨600, 675⟩, ⟨825, 900⟩, ⟨1050, 1080⟩] } ∧
    Page.getAwakeWindow 6 = 150 ∧
    Page.getNapDuration 6 1 3 = 75 ∧
    Page.getNapDuration 6 2 3 = 75 ∧
    Page.getNapDuration 6 3 3 = 30 ∧
    450 + 150 + 75 + 150 + 75 + 150 + 30 + 150 = (1230 : Int) ∧
    min (1080 + 150) (22 * 60) = (1230 : Int) ∧
    (1230 : Int) < 22 * 60 := by
  decide

/-- C5: under the rigid-shift policy, a wake drag to pointer minute `m`
sets the wake time to `m` and shifts every nap's start, every nap's end
and the bedtime by exactly `delta = m - wakeTime`. -/
theorem rigid_wake_drag_shifts_all (s : Schedule) (m : Int) :
    (Rigid.dragUpdate s DragType.wake m).wakeTime = m ∧
    (Rigid.dragUpdate s DragType.wake m).bedtime = s.bedtime + (m - s.wakeTime) ∧
    (Rigid.dragUpdate s DragType.wake m).naps =
      s.naps.map (fun nap =>
        ⟨nap.startMinutes + (m - s.wakeTime), nap.endMinutes + (m - s.wakeTime)⟩) :=
  ⟨rfl, rfl, rfl⟩

/-- C8: each drag touches only its own boundary: a nap drag at index `i`
leaves the wake time, the bedtime and every other nap unchanged; a bedtime
drag changes only the bedtime; a wake drag (clamped-wake variant) changes
only the wake time. -/
theorem dragUpdate_frame (s : Schedule) (m : Int) (i : Nat) (off : Int)
    (j : Nat) (hj : j ≠ i) :
    (Page.dragUpdate s (DragType.napStart i) m).wakeTime = s.wakeTime ∧
    (Page.dragUpdate s (DragType.napStart i) m).bedtime = s.bedtime ∧
    napAt (Page.dragUpdate s (DragType.napStart i) m).naps j = napAt s.naps j ∧
    (Page.dragUpdate s (DragType.napEnd i) m).wakeTime = s.wakeTime ∧
    (Page.dragUpdate s (DragType.napEnd i) m).bedtime = s.bedtime ∧
    napAt (Page.dragUpdate s (DragType.napEnd i) m).naps j = napAt s.naps j ∧
    (Page.dragUpdate s (DragType.napMove i off) m).wakeTime = s.wakeTime ∧
    (Page.dragUpdate s (DragType.napMove i off) m).bedtime = s.bedtime ∧
    napAt (Page.dragUpdate s (DragType.napMove i off) m).naps j = napAt s.naps j ∧
    (Page.dragUpdate s DragType.bedtime m).wakeTime = s.wakeTime ∧
    (Page.dragUpdate s DragType.bedtime m).naps = s.naps ∧
    (Page.dragUpdate s DragType.wake m).bedtime = s.bedtime ∧
    (Page.dragUpdate s DragType.wake m).naps = s.naps :=
  ⟨rfl, rfl, napAt_set_ne hj, rfl, rfl, napAt_set_ne hj, rfl, rfl, napAt_set_ne hj,
    rfl, rfl, rfl, rfl⟩

/-- Witness for C8 at the sample schedule, nap index 0, other index 1. -/
theorem dragUpdate_frame_witness :
    (1 : Nat) ≠ 0 ∧
    ((Page.dragUpdate sampleSchedule (DragType.napStart 0) 999).wakeTime =
        sampleSchedule.wakeTime ∧
      (Page.dragUpdate sampleSchedule (DragType.napStart 0) 999).bedtime =
        sampleSchedule.bedtime ∧
      napAt (Page.dragUpdate sampleSchedule (DragType.napStart 0) 999).naps 1 =
        napAt sampleSchedule.naps 1 ∧
      (Page.dragUpdate sampleSchedule (DragType.napEnd 0) 999).wakeTime =
        sampleSchedule.wakeTime ∧
      (Page.dragUpdate sampleSchedule (DragType.napEnd 0) 999).bedtime =
        sampleSchedule.bedtime ∧
      napAt (Page.dragUpdate sampleSchedule (DragType.napEnd 0) 999).naps 1 =
        napAt sampleSchedule.naps 1 ∧
      (Page.dragUpdate sampleSchedule (DragType.napMove 0 5) 999).wakeTime =
        sampleSchedule.wakeTime ∧
      (Page.dragUpdate sampleSchedule (DragType.napMove 0 5) 999).bedtime =
        sampleSchedule.bedtime ∧
      napAt (Page.dragUpdate sampleSchedule (DragType.napMove 0 5) 999).naps 1 =
        napAt sampleSchedule.naps 1 ∧
      (Page.dragUpdate sampleSchedule DragType.bedtime 999).wakeTime =
        sampleSchedule.wakeTime ∧
      (Page.dragUpdate sampleSchedule DragType.bedtime 999).naps =
        sampleSchedule.naps ∧
      (Page.dragUpdate sampleSchedule DragType.wake 999).bedtime =
        sampleSchedule.bedtime ∧
      (Page.dragUpdate sampleSchedule DragType.wake 999).naps =
        sampleSchedule.naps) :=
  ⟨by decide, dragUpdate_frame sampleSchedule 999 0 5 1 (by decide)⟩

/-- Counterexample to C1 as stated: at age 6 months, 3 naps and wake time
690 (11:30 AM) the third nap ends at 1320 and the unconditional
`min(..., 22 * 60)` clamp makes bedtime also 1320, so the boundary list
`[690, 840, 915, 1065, 1140, 1290, 1320, 1320]` is not strictly
increasing. -/
theorem generateSchedule_strictMono_cex :
    ¬ strictlyIncreasing (scheduleBoundaries (Page.generateSchedule 6 3 690)) := by
  decide

/-- Counterexample to C6 as stated: the nap-free schedule with wake 400
and bedtime 430 satisfies the section-3 invariants, yet a wake drag to the
current wake time 400 clamps against `bedtime - 60 = 370` and moves the
wake time. -/
theorem dragUpdate_idempotent_cex :
    scheduleInv 30 15 ⟨400, 430, []⟩ ∧
    dragIndexValid ⟨400, 430, []⟩ DragType.wake ∧
    currentBoundaryPos ⟨400, 430, []⟩ DragType.wake = 400 ∧
    Page.dragUpdate ⟨400, 430, []⟩ DragType.wake 400 ≠ ⟨400, 430, []⟩ := by
  decide

/-- Counterexample to C7 as stated: the 12-hour output `7:30 AM` of
`formatTime 450` is not re-parseable by `parseTime` (the minutes piece
`30 AM` converts to NaN), and for the negative offset -10 the 24-hour
formatter prints `-1:-10`, which re-parses to -70, not to
`((-10 % 1440) + 1440) % 1440 = 1430`. -/
theorem parseTime_roundTrip_cex :
    Lib.parseTime (Lib.formatTime 450) = none ∧
    Lib.parseTime (Clock.formatTime24 (-10)) = some (-70) ∧
    jsRem (jsRem (-10) 1440 + 1440) 1440 = 1430 ∧
    (-70 : Int) ≠ 1430 := by
  decide

theorem getNapDuration_pos (a : Int) (i n : Nat) : 0 < Page.getNapDuration a i n := by
  unfold Page.getNapDuration
  dsimp only
  split_ifs <;> decide

theorem getAwakeWindow_pos (a : Int) : 0 < Page.getAwakeWindow a := by
  unfold Page.getAwakeWindow Page.getAwakeWindowRange
  split_ifs <;> decide

theorem chain_lastD_append (l : List Int) (a b : Int)
    (h : List.Chain (· < ·) a l) (h2 : l.getLastD a < b) :
    List.Chain (· < ·) a (l ++ [b]) := by
  induction l generalizing a with
  | nil => simpa using List.Chain.cons h2 List.Chain.nil
  | cons x xs ih =>
      rw [List.chain_cons] at h
      rw [List.cons_append, List.chain_cons]
      refine ⟨h.1, ih x h.2 ?_⟩
      rw [List.getLastD_cons] at h2
      exact h2

theorem strictlyIncreasingB_of_chain : ∀ (a : Int) (l : List Int),
    List.Chain (· < ·) a l → strictlyIncreasingB (a :: l) = true := by
  intro a l
  induction l generalizing a with
  | nil => intro _; rfl
  | cons x xs ih =>
      intro h
      rw [List.chain_cons] at h
      show (decide (a < x) && strictlyIncreasingB (x :: xs)) = true
      rw [Bool.and_eq_true, decide_eq_true_eq]
      exact ⟨h.1, ih x h.2⟩

theorem genNaps_chain (a aw : Int) (tot : Nat) (haw : 0 < aw) :
    ∀ (r : Nat) (t : Int),
      List.Chain (· < ·) t (napBoundaryList (Page.genNaps a aw tot r t).1) ∧
      (napBoundaryList (Page.genNaps a aw tot r t).1).getLastD t =
        (Page.genNaps a aw tot r t).2 := by
  intro r
  induction r with
  | zero => intro t; exact ⟨List.Chain.nil, rfl⟩
  | succ n ih =>
      intro t
      have hd := getNapDuration_pos a (tot - n) tot
      obtain ⟨ihc, ihl⟩ := ih (t + aw + Page.getNapDuration a (tot - n) tot)
      constructor
      · simp only [Page.genNaps, napBoundaryList]
        rw [List.chain_cons, List.chain_cons]
        exact ⟨by omega, by omega, ihc⟩
      · simp only [Page.genNaps, napBoundaryList]
        rw [List.getLastD_cons, List.getLastD_cons]
        exact ihl

theorem genNaps_last_mem (a aw : Int) (tot : Nat) :
    ∀ (r : Nat) (t : Int), 1 ≤ r →
      ∃ nap ∈ (Page.genNaps a aw tot r t).1,
        nap.endMinutes = (Page.genNaps a aw tot r t).2 := by
  intro r
  induction r with
  | zero => intro t h; omega
  | succ n ih =>
      intro t _
      by_cases hn : 1 ≤ n
      · obtain ⟨nap, hmem, heq⟩ :=
          ih (t + aw + Page.getNapDuration a (tot - n) tot) hn
        refine ⟨nap, ?_, ?_⟩
        · simp only [Page.genNaps]
          exact List.mem_cons_of_mem _ hmem
        · simpa only [Page.genNaps] using heq
      · have hn0 : n = 0 := by omega
        subst hn0
        exact ⟨⟨t + aw, t + aw + Page.getNapDuration a (tot - 0) tot⟩,
          by simp [Page.genNaps], by simp [Page.genNaps]⟩

/-- C1 (amended): for every age, every nap count 1..5 and every wake time
for which every generated nap ends strictly before the 22:00 ceiling, the
generated schedule's boundaries are strictly increasing.  The restriction
is forced by the unconditional `min(..., 22 * 60)` bedtime clamp: when the
walked-forward schedule reaches 22:00 before bedtime, the clamp pulls
bedtime down onto (or below) the last nap's end
(`generateSchedule_strictMono_cex`). -/
theorem generateSchedule_boundaries_increasing (a : Int) (n : Nat) (w : Int)
    (hn1 : 1 ≤ n) (hn5 : n ≤ 5)
    (hcap : ∀ nap ∈ (Page.generateSchedule a n w).naps, nap.endMinutes < 22 * 60) :
    strictlyIncreasing (scheduleBoundaries (Page.generateSchedule a n w)) := by
  have haw := getAwakeWindow_pos a
  obtain ⟨hchain, hlast⟩ :=
    genNaps_chain a (Page.getAwakeWindow a) n haw n w
  obtain ⟨nap, hmem, hend⟩ :=
    genNaps_last_mem a (Page.getAwakeWindow a) n n w hn1
  have hnap_cap : nap.endMinutes < 22 * 60 := hcap nap hmem
  have hsnd_lt : (Page.genNaps a (Page.getAwakeWindow a) n n w).2 <
      min ((Page.genNaps a (Page.getAwakeWindow a) n n w).2 + Page.getAwakeWindow a)
        (22 * 60) := by
    rw [lt_min_iff]
    omega
  have hfull : List.Chain (· < ·) w
      (napBoundaryList (Page.genNaps a (Page.getAwakeWindow a) n n w).1 ++
        [min ((Page.genNaps a (Page.getAwakeWindow a) n n w).2 + Page.getAwakeWindow a)
          (22 * 60)]) := by
    refine chain_lastD_append _ _ _ hchain ?_
    rw [hlast]
    exact hsnd_lt
  exact strictlyIncreasingB_of_chain _ _ hfull

/-- Witness for C1 at age 6 months, 3 naps, wake time 450. -/
theorem generateSchedule_boundaries_increasing_witness :
    ((1 : Nat) ≤ 3 ∧ (3 : Nat) ≤ 5 ∧
      ∀ nap ∈ (Page.generateSchedule 6 3 450).naps, nap.endMinutes < 22 * 60) ∧
    strictlyIncreasing (scheduleBoundaries (Page.generateSchedule 6 3 450)) :=
  ⟨⟨by decide, by decide, by decide⟩,
    generateSchedule_boundaries_increasing 6 3 450 (by decide) (by decide) (by decide)⟩

theorem end_le_nextBoundary (s : Schedule) (i : Nat) (hi : i < s.naps.length)
    (h : scheduleInv 30 15 s) :
    (napAt s.naps i).endMinutes + 30 ≤ nextBoundaryOf s i := by
  obtain ⟨hgap, hsep, hbed⟩ := h
  unfold nextBoundaryOf
  split_ifs with hlt
  · have hg := hgap (i + 1) (by omega)
    unfold prevBoundaryOf at hg
    rw [if_neg (by omega)] at hg
    have he : i + 1 - 1 = i := by omega
    rw [he] at hg
    omega
  · rw [if_neg (by omega)] at hbed
    have he : s.naps.length - 1 = i := by omega
    rw [he] at hbed
    omega

theorem maxEnd_eq (s : Schedule) (i : Nat) :
    (if i < s.naps.length - 1 then (napAt s.naps (i + 1)).startMinutes - 30
     else s.bedtime - 30) = nextBoundaryOf s i - 30 := by
  unfold nextBoundaryOf
  split_ifs <;> rfl

theorem minStart_eq (s : Schedule) (i : Nat) :
    (if i = 0 then s.wakeTime + 30 else (napAt s.naps (i - 1)).endMinutes + 30) =
      prevBoundaryOf s i + 30 := by
  unfold prevBoundaryOf
  split_ifs <;> rfl

theorem scheduleInv_set_nap (s : Schedule) (i : Nat) (a b : Int)
    (hi : i < s.naps.length) (h : scheduleInv 30 15 s)
    (hprev : prevBoundaryOf s i + 30 ≤ a)
    (hab : a + 15 ≤ b)
    (hnext : b + 30 ≤ nextBoundaryOf s i) :
    scheduleInv 30 15 { s with naps := s.naps.set i ⟨a, b⟩ } := by
  obtain ⟨hgap, hsep, hbed⟩ := h
  refine ⟨?_, ?_, ?_⟩
  · intro j hj
    have hj' : j < s.naps.length := by
      have : j < (s.naps.set i ⟨a, b⟩).length := hj
      rwa [List.length_set] at this
    by_cases hji : j = i
    · subst hji
      have hpb : prevBoundaryOf { s with naps := s.naps.set j ⟨a, b⟩ } j =
          prevBoundaryOf s j := by
        unfold prevBoundaryOf
        by_cases h0 : j = 0
        · rw [if_pos h0, if_pos h0]
        · rw [if_neg h0, if_neg h0]
          show (napAt (s.naps.set j ⟨a, b⟩) (j - 1)).endMinutes = _
          rw [napAt_set_ne (by omega)]
      rw [hpb]
      show prevBoundaryOf s j + 30 ≤ (napAt (s.naps.set j ⟨a, b⟩) j).startMinutes
      rw [napAt_set_self hj']
      exact hprev
    · show prevBoundaryOf { s with naps := s.naps.set i ⟨a, b⟩ } j + 30 ≤
        (napAt (s.naps.set i ⟨a, b⟩) j).startMinutes
      rw [napAt_set_ne hji]
      by_cases hj1 : j = i + 1
      · subst hj1
        have hpb : prevBoundaryOf { s with naps := s.naps.set i ⟨a, b⟩ } (i + 1) = b := by
          unfold prevBoundaryOf
          rw [if_neg (by omega)]
          have he : i + 1 - 1 = i := by omega
          show (napAt (s.naps.set i ⟨a, b⟩) (i + 1 - 1)).endMinutes = b
          rw [he, napAt_set_self hi]
        rw [hpb]
        have hnb : nextBoundaryOf s i = (napAt s.naps (i + 1)).startMinutes := by
          unfold nextBoundaryOf
          rw [if_pos (by omega)]
        omega
      · have hpb : prevBoundaryOf { s with naps := s.naps.set i ⟨a, b⟩ } j =
            prevBoundaryOf s j := by
          unfold prevBoundaryOf
          by_cases h0 : j = 0
          · rw [if_pos h0, if_pos h0]
          · rw [if_neg h0, if_neg h0]
            show (napAt (s.naps.set i ⟨a, b⟩) (j - 1)).endMinutes = _
            rw [napAt_set_ne (by omega)]
        rw [hpb]
        exact hgap j hj'
  · intro j hj
    have hj' : j < s.naps.length := by
      have : j < (s.naps.set i ⟨a, b⟩).length := hj
      rwa [List.length_set] at this
    show (napAt (s.naps.set i ⟨a, b⟩) j).startMinutes + 15 ≤
      (napAt (s.naps.set i ⟨a, b⟩) j).endMinutes
    by_cases hji : j = i
    · subst hji
      rw [napAt_set_self hj']
      exact hab
    · rw [napAt_set_ne hji]
      exact hsep j hj'
  · show if (s.naps.set i ⟨a, b⟩).length = 0 then s.wakeTime < s.bedtime
      else (napAt (s.naps.set i ⟨a, b⟩) ((s.naps.set i ⟨a, b⟩).length - 1)).endMinutes + 30 ≤
        s.bedtime
    rw [List.length_set, if_neg (by omega)]
    by_cases hil : i = s.naps.length - 1
    · rw [← hil, napAt_set_self hi]
      have hnb : nextBoundaryOf s i = s.bedtime := by
        unfold nextBoundaryOf
        rw [if_neg (by omega)]
      rw [hnb] at hnext
      exact hnext
    · rw [napAt_set_ne (by omega)]
      rw [if_neg (by omega)] at hbed
      exact hbed

theorem dragUpdate_wake_inv (s : Schedule) (m : Int) (h : scheduleInv 30 15 s) :
    scheduleInv 30 15 (Page.dragUpdate s DragType.wake m) := by
  obtain ⟨hgap, hsep, hbed⟩ := h
  show scheduleInv 30 15
    { s with wakeTime := min m (if s.naps.length = 0 then s.bedtime - 60
                                else (napAt s.naps 0).startMinutes - 30) }
  refine ⟨?_, ?_, ?_⟩
  · intro j hj
    have hj' : j < s.naps.length := hj
    have hlen : ¬ s.naps.length = 0 := by omega
    rw [if_neg hlen]
    by_cases hj0 : j = 0
    · subst hj0
      show (if (0 : Nat) = 0
          then min m ((napAt s.naps 0).startMinutes - 30)
          else (napAt s.naps (0 - 1)).endMinutes) + 30 ≤
        (napAt s.naps 0).startMinutes
      rw [if_pos rfl]
      have := min_le_right m ((napAt s.naps 0).startMinutes - 30)
      omega
    · show (if j = 0
          then min m ((napAt s.naps 0).startMinutes - 30)
          else (napAt s.naps (j - 1)).endMinutes) + 30 ≤
        (napAt s.naps j).startMinutes
      rw [if_neg hj0]
      have hg := hgap j hj'
      unfold prevBoundaryOf at hg
      rw [if_neg hj0] at hg
      exact hg
  · intro j hj
    exact hsep j hj
  · by_cases hlen : s.naps.length = 0
    · show if s.naps.length = 0
          then min m (if s.naps.length = 0 then s.bedtime - 60
                      else (napAt s.naps 0).startMinutes - 30) < s.bedtime
          else (napAt s.naps (s.naps.length - 1)).endMinutes + 30 ≤ s.bedtime
      rw [if_pos hlen, if_pos hlen]
      have := min_le_right m (s.bedtime - 60)
      omega
    · show if s.naps.length = 0
          then min m (if s.naps.length = 0 then s.bedtime - 60
                      else (napAt s.naps 0).startMinutes - 30) < s.bedtime
          else (napAt s.naps (s.naps.length - 1)).endMinutes + 30 ≤ s.bedtime
      rw [if_neg hlen]
      rw [if_neg hlen] at hbed
      exact hbed

theorem dragUpdate_bedtime_inv (s : Schedule) (m : Int) (h : scheduleInv 30 15 s) :
    scheduleInv 30 15 (Page.dragUpdate s DragType.bedtime m) := by
  obtain ⟨hgap, hsep, hbed⟩ := h
  show scheduleInv 30 15
    { s with bedtime := max (if s.naps.length = 0 then s.wakeTime + 60
                             else (napAt s.naps (s.naps.length - 1)).endMinutes + 30) m }
  refine ⟨?_, ?_, ?_⟩
  · intro j hj
    exact hgap j hj
  · intro j hj
    exact hsep j hj
  · by_cases hlen : s.naps.length = 0
    · show if s.naps.length = 0
          then s.wakeTime < max (if s.naps.length = 0 then s.wakeTime + 60
                                 else (napAt s.naps (s.naps.length - 1)).endMinutes + 30) m
          else (napAt s.naps (s.naps.length - 1)).endMinutes + 30 ≤
            max (if s.naps.length = 0 then s.wakeTime + 60
                 else (napAt s.naps (s.naps.length - 1)).endMinutes + 30) m
      rw [if_pos hlen, if_pos hlen]
      have := le_max_left (s.wakeTime + 60) m
      omega
    · show if s.naps.length = 0
          then s.wakeTime < max (if s.naps.length = 0 then s.wakeTime + 60
                                 else (napAt s.naps (s.naps.length - 1)).endMinutes + 30) m
          else (napAt s.naps (s.naps.length - 1)).endMinutes + 30 ≤
            max (if s.naps.length = 0 then s.wakeTime + 60
                 else (napAt s.naps (s.naps.length - 1)).endMinutes + 30) m
      rw [if_neg hlen, if_neg hlen]
      have := le_max_left ((napAt s.naps (s.naps.length - 1)).endMinutes + 30) m
      omega

theorem dragUpdate_napEnd_inv (s : Schedule) (i : Nat) (m : Int)
    (hi : i < s.naps.length) (h : scheduleInv 30 15 s) :
    scheduleInv 30 15 (Page.dragUpdate s (DragType.napEnd i) m) := by
  have hkey := end_le_nextBoundary s i hi h
  have hsepi := h.2.1 i hi
  have hgapi := h.1 i hi
  show scheduleInv 30 15
    { s with naps := (s.naps.set i
        ⟨(napAt s.naps i).startMinutes,
          max ((napAt s.naps i).startMinutes + 15)
            (min (if i < s.naps.length - 1
                  then (napAt s.naps (i + 1)).startMinutes - 30
                  else s.bedtime - 30) m)⟩) }
  rw [maxEnd_eq s i]
  refine scheduleInv_set_nap s i _ _ hi h hgapi (le_max_left _ _) ?_
  have h1 : min (nextBoundaryOf s i - 30) m ≤ nextBoundaryOf s i - 30 :=
    min_le_left _ _
  have h2 : max ((napAt s.naps i).startMinutes + 15)
      (min (nextBoundaryOf s i - 30) m) ≤ nextBoundaryOf s i - 30 := by
    apply max_le _ h1
    omega
  omega

theorem dragUpdate_napStart_inv (s : Schedule) (i : Nat) (m : Int)
    (hi : i < s.naps.length) (h : scheduleInv 30 15 s) :
    scheduleInv 30 15 (Page.dragUpdate s (DragType.napStart i) m) := by
  have hkey := end_le_nextBoundary s i hi h
  have hsepi := h.2.1 i hi
  have hgapi := h.1 i hi
  show scheduleInv 30 15
    { s with naps := (s.naps.set i
        ⟨max (if i = 0 then s.wakeTime + 30 else (napAt s.naps (i - 1)).endMinutes + 30)
            (min ((napAt s.naps i).endMinutes - 15) m),
          (napAt s.naps i).endMinutes⟩) }
  rw [minStart_eq s i]
  refine scheduleInv_set_nap s i _ _ hi h (le_max_left _ _) ?_ hkey
  have h1 : min ((napAt s.naps i).endMinutes - 15) m ≤
      (napAt s.naps i).endMinutes - 15 := min_le_left _ _
  have h2 : max (prevBoundaryOf s i + 30) (min ((napAt s.naps i).endMinutes - 15) m) ≤
      (napAt s.naps i).endMinutes - 15 := by
    apply max_le _ h1
    omega
  omega

theorem dragUpdate_napMove_inv (s : Schedule) (i : Nat) (off m : Int)
    (hi : i < s.naps.length) (h : scheduleInv 30 15 s) :
    scheduleInv 30 15 (Page.dragUpdate s (DragType.napMove i off) m) := by
  have hkey := end_le_nextBoundary s i hi h
  have hsepi := h.2.1 i hi
  have hgapi := h.1 i hi
  show scheduleInv 30 15
    { s with naps := (s.naps.set i
        ⟨max (if i = 0 then s.wakeTime + 30 else (napAt s.naps (i - 1)).endMinutes + 30)
            (min ((if i < s.naps.length - 1
                   then (napAt s.naps (i + 1)).startMinutes - 30
                   else s.bedtime - 30) -
                ((napAt s.naps i).endMinutes - (napAt s.naps i).startMinutes))
              (m - off)),
          max (if i = 0 then s.wakeTime + 30 else (napAt s.naps (i - 1)).endMinutes + 30)
            (min ((if i < s.naps.length - 1
                   then (napAt s.naps (i + 1)).startMinutes - 30
                   else s.bedtime - 30) -
                ((napAt s.naps i).endMinutes - (napAt s.naps i).startMinutes))
              (m - off)) +
            ((napAt s.naps i).endMinutes - (napAt s.naps i).startMinutes)⟩) }
  rw [minStart_eq s i, maxEnd_eq s i]
  refine scheduleInv_set_nap s i _ _ hi h (le_max_left _ _) (by omega) ?_
  have h1 : min (nextBoundaryOf s i - 30 -
        ((napAt s.naps i).endMinutes - (napAt s.naps i).startMinutes)) (m - off) ≤
      nextBoundaryOf s i - 30 -
        ((napAt s.naps i).endMinutes - (napAt s.naps i).startMinutes) :=
    min_le_left _ _
  have h2 : max (prevBoundaryOf s i + 30)
      (min (nextBoundaryOf s i - 30 -
          ((napAt s.naps i).endMinutes - (napAt s.naps i).startMinutes)) (m - off)) ≤
      nextBoundaryOf s i - 30 -
        ((napAt s.naps i).endMinutes - (napAt s.naps i).startMinutes) := by
    apply max_le _ h1
    omega
  omega

theorem scheduleInv_no_overlap (s : Schedule) (h : scheduleInv 30 15 s) :
    ∀ i j, i < j → j < s.naps.length →
      (napAt s.naps i).endMinutes < (napAt s.naps j).startMinutes := by
  obtain ⟨hgap, hsep, _⟩ := h
  intro i j
  induction j with
  | zero => intro hij _; omega
  | succ k ih =>
      intro hij hj
      have hg := hgap (k + 1) hj
      unfold prevBoundaryOf at hg
      rw [if_neg (by omega)] at hg
      have he : k + 1 - 1 = k := by omega
      rw [he] at hg
      by_cases hik : i = k
      · subst hik; omega
      · have hik2 : i < k := by omega
        have hk : k < s.naps.length := by omega
        have hlt := ih hik2 hk
        have hs := hsep k hk
        omega

/-- C2: for every drag type (with the index of an existing nap for the nap
drags) and every snapped pointer minute value, a schedule satisfying the
section-3 invariants of this variant — a 30-minute minimum gap at
wake-to-first-nap-start, at each nap-end-to-next-nap-start and at
last-nap-end-to-bedtime, and a 15-minute minimum nap length — is mapped by
the drag update to a schedule satisfying them again; consequently every
nap still ends after it starts and no nap overlaps another. -/
theorem dragUpdate_preserves_invariants (s : Schedule) (d : DragType) (m : Int)
    (hvalid : dragIndexValid s d) (hinv : scheduleInv 30 15 s) :
    scheduleInv 30 15 (Page.dragUpdate s d m) ∧
    (∀ i j, i < j → j < (Page.dragUpdate s d m).naps.length →
      (napAt (Page.dragUpdate s d m).naps i).endMinutes <
        (napAt (Page.dragUpdate s d m).naps j).startMinutes) := by
  have hpres : scheduleInv 30 15 (Page.dragUpdate s d m) := by
    cases d with
    | wake => exact dragUpdate_wake_inv s m hinv
    | bedtime => exact dragUpdate_bedtime_inv s m hinv
    | napStart i => exact dragUpdate_napStart_inv s i m hvalid hinv
    | napEnd i => exact dragUpdate_napEnd_inv s i m hvalid hinv
    | napMove i off => exact dragUpdate_napMove_inv s i off m hvalid hinv
  exact ⟨hpres, scheduleInv_no_overlap _ hpres⟩

/-- Witness for C2 at the sample schedule with a nap-end drag pushed far
past every bound. -/
theorem dragUpdate_preserves_invariants_witness :
    (dragIndexValid sampleSchedule (DragType.napEnd 0) ∧
      scheduleInv 30 15 sampleSchedule) ∧
    (scheduleInv 30 15 (Page.dragUpdate sampleSchedule (DragType.napEnd 0) 2000) ∧
      (∀ i j, i < j →
        j < (Page.dragUpdate sampleSchedule (DragType.napEnd 0) 2000).naps.length →
        (napAt (Page.dragUpdate sampleSchedule (DragType.napEnd 0) 2000).naps i).endMinutes <
          (napAt (Page.dragUpdate sampleSchedule (DragType.napEnd 0) 2000).naps j).startMinutes)) :=
  ⟨⟨by decide, by decide⟩,
    dragUpdate_preserves_invariants sampleSchedule (DragType.napEnd 0) 2000
      (by decide) (by decide)⟩

/-- C4: a nap-end drag sets the dragged nap's end to the clamp of the
pointer minute into `[own start + 15, next boundary - 30]` (next nap's
start when one exists, bedtime otherwise) and keeps its start; in
particular, for nap 0 with a following nap, any pointer value exceeding
`naps[1].start - 30` yields exactly `naps[1].start - 30`. -/
theorem napEnd_drag_clamps (s : Schedule) (i : Nat) (m : Int)
    (hi : i < s.naps.length) (hinv : scheduleInv 30 15 s) :
    napAt (Page.dragUpdate s (DragType.napEnd i) m).naps i =
      ⟨(napAt s.naps i).startMinutes,
        clampTo ((napAt s.naps i).startMinutes + 15) (nextBoundaryOf s i - 30) m⟩ ∧
    (i = 0 → 1 < s.naps.length → (napAt s.naps 1).startMinutes - 30 < m →
      (napAt (Page.dragUpdate s (DragType.napEnd 0) m).naps 0).endMinutes =
        (napAt s.naps 1).startMinutes - 30) := by
  constructor
  · show napAt (s.naps.set i
        ⟨(napAt s.naps i).startMinutes,
          max ((napAt s.naps i).startMinutes + 15)
            (min (if i < s.naps.length - 1
                  then (napAt s.naps (i + 1)).startMinutes - 30
                  else s.bedtime - 30) m)⟩) i = _
    rw [napAt_set_self hi, maxEnd_eq s i]
    rfl
  · intro h0 h1 hm
    subst h0
    have h0len : 0 < s.naps.length := by omega
    show (napAt (s.naps.set 0
        ⟨(napAt s.naps 0).startMinutes,
          max ((napAt s.naps 0).startMinutes + 15)
            (min (if 0 < s.naps.length - 1
                  then (napAt s.naps 1).startMinutes - 30
                  else s.bedtime - 30) m)⟩) 0).endMinutes =
      (napAt s.naps 1).startMinutes - 30
    rw [napAt_set_self h0len]
    show max ((napAt s.naps 0).startMinutes + 15)
        (min (if 0 < s.naps.length - 1
              then (napAt s.naps 1).startMinutes - 30
              else s.bedtime - 30) m) =
      (napAt s.naps 1).startMinutes - 30
    rw [if_pos (by omega)]
    have hsep0 := hinv.2.1 0 h0len
    have hkey := end_le_nextBoundary s 0 h0len hinv
    have hnb : nextBoundaryOf s 0 = (napAt s.naps 1).startMinutes := by
      unfold nextBoundaryOf
      rw [if_pos (by omega)]
    rw [hnb] at hkey
    rw [min_eq_left (by omega), max_eq_right (by omega)]

/-- Witness for C4 at the sample schedule, nap 0, pointer far right. -/
theorem napEnd_drag_clamps_witness :
    ((0 : Nat) < sampleSchedule.naps.length ∧ scheduleInv 30 15 sampleSchedule) ∧
    (napAt (Page.dragUpdate sampleSchedule (DragType.napEnd 0) 2000).naps 0 =
        ⟨(napAt sampleSchedule.naps 0).startMinutes,
          clampTo ((napAt sampleSchedule.naps 0).startMinutes + 15)
            (nextBoundaryOf sampleSchedule 0 - 30) 2000⟩ ∧
      ((0 : Nat) = 0 → 1 < sampleSchedule.naps.length →
        (napAt sampleSchedule.naps 1).startMinutes - 30 < 2000 →
        (napAt (Page.dragUpdate sampleSchedule (DragType.napEnd 0) 2000).naps 0).endMinutes =
          (napAt sampleSchedule.naps 1).startMinutes - 30)) :=
  ⟨⟨by decide, by decide⟩,
    napEnd_drag_clamps sampleSchedule 0 2000 (by decide) (by decide)⟩

/-- C6 (amended): for every schedule with at least one nap that satisfies
the section-3 invariants, a drag of any type (with the index of an
existing nap for the nap drags) whose snapped pointer minute equals the
dragged boundary's current position returns the schedule unchanged.  The
restriction to schedules with a nap is forced by the nap-free clamps,
which push the boundary to `bedtime - 60` (wake) or `wakeTime + 60`
(bedtime) even when it is not moved (`dragUpdate_idempotent_cex`). -/
theorem dragUpdate_idempotent (s : Schedule) (d : DragType)
    (hne : s.naps.length ≠ 0) (hvalid : dragIndexValid s d)
    (hinv : scheduleInv 30 15 s) :
    Page.dragUpdate s d (currentBoundaryPos s d) = s := by
  obtain ⟨hgap, hsep, hbed⟩ := hinv
  cases d with
  | wake =>
      show { s with wakeTime := (min s.wakeTime
          (if s.naps.length = 0 then s.bedtime - 60
           else (napAt s.naps 0).startMinutes - 30)) } = s
      rw [if_neg hne]
      have hg := hgap 0 (by omega)
      unfold prevBoundaryOf at hg
      rw [if_pos rfl] at hg
      rw [min_eq_left (by omega)]
  | bedtime =>
      show { s with bedtime := (max
          (if s.naps.length = 0 then s.wakeTime + 60
           else (napAt s.naps (s.naps.length - 1)).endMinutes + 30) s.bedtime) } = s
      rw [if_neg hne]
      rw [if_neg hne] at hbed
      rw [max_eq_right hbed]
  | napStart i =>
      have hi : i < s.naps.length := hvalid
      have hgi := hgap i hi
      have hsi := hsep i hi
      show { s with naps := (s.naps.set i
          ⟨max (if i = 0 then s.wakeTime + 30 else (napAt s.naps (i - 1)).endMinutes + 30)
              (min ((napAt s.naps i).endMinutes - 15) (napAt s.naps i).startMinutes),
            (napAt s.naps i).endMinutes⟩) } = s
      rw [minStart_eq s i, min_eq_right (by omega), max_eq_right hgi]
      have heta : (⟨(napAt s.naps i).startMinutes, (napAt s.naps i).endMinutes⟩ :
          NapBlock) = napAt s.naps i := rfl
      rw [heta, set_napAt_self s.naps i hi]
  | napEnd i =>
      have hi : i < s.naps.length := hvalid
      have hsi := hsep i hi
      have hkey := end_le_nextBoundary s i hi ⟨hgap, hsep, hbed⟩
      show { s with naps := (s.naps.set i
          ⟨(napAt s.naps i).startMinutes,
            max ((napAt s.naps i).startMinutes + 15)
              (min (if i < s.naps.length - 1
                    then (napAt s.naps (i + 1)).startMinutes - 30
                    else s.bedtime - 30) (napAt s.naps i).endMinutes)⟩) } = s
      rw [maxEnd_eq s i, min_eq_right (by omega), max_eq_right (by omega)]
      have heta : (⟨(napAt s.naps i).startMinutes, (napAt s.naps i).endMinutes⟩ :
          NapBlock) = napAt s.naps i := rfl
      rw [heta, set_napAt_self s.naps i hi]
  | napMove i off =>
      have hi : i < s.naps.length := hvalid
      have hgi := hgap i hi
      have hsi := hsep i hi
      have hkey := end_le_nextBoundary s i hi ⟨hgap, hsep, hbed⟩
      show { s with naps := (s.naps.set i
          ⟨max (if i = 0 then s.wakeTime + 30 else (napAt s.naps (i - 1)).endMinutes + 30)
              (min ((if i < s.naps.length - 1
                     then (napAt s.naps (i + 1)).startMinutes - 30
                     else s.bedtime - 30) -
                  ((napAt s.naps i).endMinutes - (napAt s.naps i).startMinutes))
                ((napAt s.naps i).startMinutes + off - off)),
            max (if i = 0 then s.wakeTime + 30 else (napAt s.naps (i - 1)).endMinutes + 30)
              (min ((if i < s.naps.length - 1
                     then (napAt s.naps (i + 1)).startMinutes - 30
                     else s.bedtime - 30) -
                  ((napAt s.naps i).endMinutes - (napAt s.naps i).startMinutes))
                ((napAt s.naps i).startMinutes + off - off)) +
              ((napAt s.naps i).endMinutes - (napAt s.naps i).startMinutes)⟩) } = s
      rw [minStart_eq s i, maxEnd_eq s i]
      have hoff : (napAt s.naps i).startMinutes + off - off =
          (napAt s.naps i).startMinutes := by ring
      rw [hoff, min_eq_right (by omega), max_eq_right hgi]
      have hdur : (napAt s.naps i).startMinutes +
          ((napAt s.naps i).endMinutes - (napAt s.naps i).startMinutes) =
          (napAt s.naps i).endMinutes := by ring
      rw [hdur]
      have heta : (⟨(napAt s.naps i).startMinutes, (napAt s.naps i).endMinutes⟩ :
          NapBlock) = napAt s.naps i := rfl
      rw [heta, set_napAt_self s.naps i hi]

/-- Witness for C6 at the sample schedule with a whole-nap move of nap 1
grabbed at offset 10. -/
theorem dragUpdate_idempotent_witness :
    (sampleSchedule.naps.length ≠ 0 ∧
      dragIndexValid sampleSchedule (DragType.napMove 1 10) ∧
      scheduleInv 30 15 sampleSchedule) ∧
    Page.dragUpdate sampleSchedule (DragType.napMove 1 10)
      (currentBoundaryPos sampleSchedule (DragType.napMove 1 10)) = sampleSchedule :=
  ⟨⟨by decide, by decide, by decide⟩,
    dragUpdate_idempotent sampleSchedule (DragType.napMove 1 10)
      (by decide) (by decide) (by decide)⟩

theorem digitChar_isDigit (d : Nat) (h : d < 10) : isDigitChar (digitChar d) = true := by
  interval_cases d <;> decide

theorem digitChar_toNat (d : Nat) (h : d < 10) : (digitChar d).toNat = 48 + d := by
  interval_cases d <;> decide

theorem digit_ne_minus (c : Char) (h : isDigitChar c = true) : ¬ c = '-' := by
  intro hc
  subst hc
  exact absurd h (by decide)

theorem digit_ne_colon (c : Char) (h : isDigitChar c = true) : ¬ c = ':' := by
  intro hc
  subst hc
  exact absurd h (by decide)

theorem natToStringAux_small (fuel k : Nat) (h : k < 10) :
    natToStringAux fuel k = [digitChar k] := by
  cases fuel with
  | zero => rfl
  | succ f =>
      show (if k < 10 then [digitChar k]
            else natToStringAux f (k / 10) ++ [digitChar (k % 10)]) = _
      rw [if_pos h]

theorem natToStringAux_digits : ∀ (fuel n : Nat), n ≤ fuel ∨ n < 10 →
    ∀ c ∈ natToStringAux fuel n, isDigitChar c = true := by
  intro fuel
  induction fuel with
  | zero =>
      intro n h c hc
      have hn : n < 10 := by omega
      rw [natToStringAux_small 0 n hn] at hc
      rw [List.mem_singleton] at hc
      subst hc
      exact digitChar_isDigit n hn
  | succ f ih =>
      intro n h c hc
      by_cases hn : n < 10
      · rw [natToStringAux_small (f + 1) n hn, List.mem_singleton] at hc
        subst hc
        exact digitChar_isDigit n hn
      · have hstep : natToStringAux (f + 1) n =
            natToStringAux f (n / 10) ++ [digitChar (n % 10)] := by
          show (if n < 10 then [digitChar n]
                else natToStringAux f (n / 10) ++ [digitChar (n % 10)]) = _
          rw [if_neg hn]
        rw [hstep, List.mem_append, List.mem_singleton] at hc
        rcases hc with hc | hc
        · exact ih (n / 10) (Or.inl (by omega)) c hc
        · subst hc
          exact digitChar_isDigit (n % 10) (by omega)

theorem natToString_digits (n : Nat) :
    ∀ c ∈ natToString n, isDigitChar c = true :=
  natToStringAux_digits n n (Or.inl le_rfl)

theorem natToStringAux_ne_nil (fuel n : Nat) : natToStringAux fuel n ≠ [] := by
  cases fuel with
  | zero => exact List.cons_ne_nil _ _
  | succ f =>
      show (if n < 10 then [digitChar n]
            else natToStringAux f (n / 10) ++ [digitChar (n % 10)]) ≠ []
      split_ifs
      · exact List.cons_ne_nil _ _
      · simp

theorem natToStringAux_length_le2 : ∀ (fuel n : Nat), n < 100 → n ≤ fuel ∨ n < 10 →
    (natToStringAux fuel n).length ≤ 2 := by
  intro fuel n h100 h
  by_cases hn : n < 10
  · rw [natToStringAux_small fuel n hn]
    simp
  · cases fuel with
    | zero => omega
    | succ f =>
        have hstep : natToStringAux (f + 1) n =
            natToStringAux f (n / 10) ++ [digitChar (n % 10)] := by
          show (if n < 10 then [digitChar n]
                else natToStringAux f (n / 10) ++ [digitChar (n % 10)]) = _
          rw [if_neg hn]
        rw [hstep, List.length_append, natToStringAux_small f (n / 10) (by omega)]
        simp

theorem parseDigitsAux_append_some : ∀ (l1 : List Char) (l2 : List Char) (acc a : Nat),
    parseDigitsAux acc l1 = some a →
    parseDigitsAux acc (l1 ++ l2) = parseDigitsAux a l2 := by
  intro l1
  induction l1 with
  | nil =>
      intro l2 acc a hp
      have : acc = a := by
        have : some acc = some a := hp
        exact Option.some.inj this
      subst this
      rfl
  | cons c cs ih =>
      intro l2 acc a hp
      by_cases hc : isDigitChar c = true
      · have hp2 : parseDigitsAux (10 * acc + (c.toNat - 48)) cs = some a := by
          have h0 : parseDigitsAux acc (c :: cs) =
              (if isDigitChar c then
                parseDigitsAux (10 * acc + (c.toNat - 48)) cs else none) := rfl
          rw [h0, if_pos hc] at hp
          exact hp
        show (if isDigitChar c then
            parseDigitsAux (10 * acc + (c.toNat - 48)) (cs ++ l2) else none) = _
        rw [if_pos hc]
        exact ih l2 _ a hp2
      · exfalso
        have h0 : parseDigitsAux acc (c :: cs) =
            (if isDigitChar c then
              parseDigitsAux (10 * acc + (c.toNat - 48)) cs else none) := rfl
        rw [h0, if_neg hc] at hp
        exact Option.noConfusion hp

theorem parseDigitsAux_natToStringAux : ∀ (fuel n acc : Nat), n ≤ fuel ∨ n < 10 →
    parseDigitsAux acc (natToStringAux fuel n) =
      some (acc * 10 ^ (natToStringAux fuel n).length + n) := by
  intro fuel
  induction fuel with
  | zero =>
      intro n acc h
      have hn : n < 10 := by omega
      rw [natToStringAux_small 0 n hn]
      show (if isDigitChar (digitChar n) then
          parseDigitsAux (10 * acc + ((digitChar n).toNat - 48)) [] else none) = _
      rw [if_pos (digitChar_isDigit n hn), digitChar_toNat n hn]
      show some (10 * acc + (48 + n - 48)) = some (acc * 10 ^ 1 + n)
      congr 1
      have h48 : 48 + n - 48 = n := by omega
      rw [h48]
      ring
  | succ f ih =>
      intro n acc h
      by_cases hn : n < 10
      · rw [natToStringAux_small (f + 1) n hn]
        show (if isDigitChar (digitChar n) then
            parseDigitsAux (10 * acc + ((digitChar n).toNat - 48)) [] else none) = _
        rw [if_pos (digitChar_isDigit n hn), digitChar_toNat n hn]
        show some (10 * acc + (48 + n - 48)) = some (acc * 10 ^ 1 + n)
        congr 1
        have h48 : 48 + n - 48 = n := by omega
        rw [h48]
        ring
      · have hstep : natToStringAux (f + 1) n =
            natToStringAux f (n / 10) ++ [digitChar (n % 10)] := by
          show (if n < 10 then [digitChar n]
                else natToStringAux f (n / 10) ++ [digitChar (n % 10)]) = _
          rw [if_neg hn]
        have hq : n / 10 ≤ f ∨ n / 10 < 10 := Or.inl (by omega)
        rw [hstep,
          parseDigitsAux_append_some _ _ acc _ (ih (n / 10) acc hq)]
        show (if isDigitChar (digitChar (n % 10)) then
            parseDigitsAux
              (10 * (acc * 10 ^ (natToStringAux f (n / 10)).length + n / 10) +
                ((digitChar (n % 10)).toNat - 48)) [] else none) = _
        rw [if_pos (digitChar_isDigit (n % 10) (by omega)),
          digitChar_toNat (n % 10) (by omega)]
        show some (10 * (acc * 10 ^ (natToStringAux f (n / 10)).length + n / 10) +
            (48 + n % 10 - 48)) =
          some (acc * 10 ^ (natToStringAux f (n / 10) ++ [digitChar (n % 10)]).length + n)
        rw [List.length_append, List.length_singleton]
        congr 1
        have h48 : 48 + n % 10 - 48 = n % 10 := by omega
        rw [h48, pow_succ]
        have hdm : 10 * (n / 10) + n % 10 = n := by omega
        generalize (10 : Nat) ^ (natToStringAux f (n / 10)).length = P
        have : 10 * (acc * P + n / 10) + n % 10 =
            acc * (P * 10) + (10 * (n / 10) + n % 10) := by ring
        rw [this, hdm]

theorem parseDigitsAux_natToString (n : Nat) :
    parseDigitsAux 0 (natToString n) = some n := by
  show parseDigitsAux 0 (natToStringAux n n) = some n
  rw [parseDigitsAux_natToStringAux n n 0 (Or.inl le_rfl)]
  congr 1
  ring

theorem parseDigitsAux_zero_cons (l : List Char) :
    parseDigitsAux 0 ('0' :: l) = parseDigitsAux 0 l := by
  show (if isDigitChar '0' then parseDigitsAux (10 * 0 + ('0'.toNat - 48)) l else none) = _
  rw [if_pos (by decide)]
  have h0 : 10 * 0 + ('0'.toNat - 48) = 0 := by decide
  rw [h0]

theorem jsNumber_digits (l : List Char) (hne : l ≠ [])
    (hd : ∀ c ∈ l, isDigitChar c = true) (n : Nat)
    (hp : parseDigitsAux 0 l = some n) : jsNumber l = some (n : Int) := by
  cases l with
  | nil => exact absurd rfl hne
  | cons c cs =>
      show (if c = '-' then
            (if (cs.isEmpty : Bool) then none
             else (parseDigitsAux 0 cs).map (fun k => -(k : Int)))
          else (parseDigitsAux 0 (c :: cs)).map (fun k => (k : Int))) = some (n : Int)
      rw [if_neg (digit_ne_minus c (hd c (List.mem_cons_self c cs))), hp]
      rfl

theorem jsPadStart2_digits (k : Nat) :
    ∀ c ∈ jsPadStart2 (natToString k), isDigitChar c = true := by
  intro c hc
  unfold jsPadStart2 at hc
  split_ifs at hc
  · rw [List.mem_append] at hc
    rcases hc with hc | hc
    · rw [List.eq_of_mem_replicate hc]
      decide
    · exact natToString_digits k c hc
  · exact natToString_digits k c hc

theorem jsNumber_pad_natToString (k : Nat) :
    jsNumber (jsPadStart2 (natToString k)) = some (k : Int) := by
  have hne : natToString k ≠ [] := natToStringAux_ne_nil k k
  have hlen1 : 1 ≤ (natToString k).length := by
    cases h : natToString k with
    | nil => exact absurd h hne
    | cons a l => simp
  unfold jsPadStart2
  split_ifs with hlen
  · have h1 : (natToString k).length = 1 := by omega
    have h2 : 2 - (natToString k).length = 1 := by omega
    rw [h2]
    have hrep : List.replicate 1 '0' = ['0'] := rfl
    rw [hrep]
    have hcons : (['0'] : List Char) ++ natToString k = '0' :: natToString k := rfl
    rw [hcons]
    refine jsNumber_digits _ (List.cons_ne_nil _ _) ?_ k ?_
    · intro c hc
      rw [List.mem_cons] at hc
      rcases hc with hc | hc
      · subst hc; decide
      · exact natToString_digits k c hc
    · rw [parseDigitsAux_zero_cons]
      exact parseDigitsAux_natToString k
  · exact jsNumber_digits _ hne (natToString_digits k) k (parseDigitsAux_natToString k)

theorem splitOnChar_not_mem (c : Char) : ∀ (l : List Char),
    (∀ x ∈ l, ¬ x = c) → splitOnChar c l = [l] := by
  intro l
  induction l with
  | nil => intro _; rfl
  | cons x xs ih =>
      intro h
      have hx : ¬ x = c := h x (List.mem_cons_self x xs)
      show (if x = c then [] :: splitOnChar c xs
            else match splitOnChar c xs with
                 | [] => [[x]]
                 | hp :: t => (x :: hp) :: t) = [x :: xs]
      rw [if_neg hx, ih (fun y hy => h y (List.mem_cons_of_mem x hy))]

theorem splitOnChar_append (c : Char) : ∀ (l1 l2 : List Char),
    (∀ x ∈ l1, ¬ x = c) →
    splitOnChar c (l1 ++ c :: l2) = l1 :: splitOnChar c l2 := by
  intro l1
  induction l1 with
  | nil =>
      intro l2 _
      show (if c = c then [] :: splitOnChar c l2
            else match splitOnChar c l2 with
                 | [] => [[c]]
                 | hp :: t => (c :: hp) :: t) = [] :: splitOnChar c l2
      rw [if_pos rfl]
  | cons x xs ih =>
      intro l2 h
      have hx : ¬ x = c := h x (List.mem_cons_self x xs)
      show (if x = c then [] :: splitOnChar c (xs ++ c :: l2)
            else match splitOnChar c (xs ++ c :: l2) with
                 | [] => [[x]]
                 | hp :: t => (x :: hp) :: t) = (x :: xs) :: splitOnChar c l2
      rw [if_neg hx, ih l2 (fun y hy => h y (List.mem_cons_of_mem x hy))]

theorem parseTime_pad_pair (h k : Nat) :
    Lib.parseTime (jsPadStart2 (natToString h) ++ ':' :: jsPadStart2 (natToString k)) =
      some ((h : Int) * 60 + (k : Int)) := by
  unfold Lib.parseTime
  have hnc1 : ∀ x ∈ jsPadStart2 (natToString h), ¬ x = ':' :=
    fun x hx => digit_ne_colon x (jsPadStart2_digits h x hx)
  have hnc2 : ∀ x ∈ jsPadStart2 (natToString k), ¬ x = ':' :=
    fun x hx => digit_ne_colon x (jsPadStart2_digits k x hx)
  rw [splitOnChar_append ':' _ _ hnc1, splitOnChar_not_mem ':' _ hnc2]
  rw [List.map_cons, List.map_cons, List.map_nil]
  rw [jsNumber_pad_natToString h, jsNumber_pad_natToString k]

theorem intToString_ofNat (k : Nat) : intToString (k : Int) = natToString k := by
  unfold intToString
  rw [if_neg (by omega)]
  norm_num

set_option maxRecDepth 4000 in
/-- C7 (amended): for every nonnegative minute offset, formatting with the
24-hour formatter `formatTime24` and re-parsing with `parseTime` returns
the offset modulo 1440 (stated with the claim's JavaScript normalization
`((m % 1440) + 1440) % 1440`).  The restrictions are forced by the
counterexample `parseTime_roundTrip_cex`: the 12-hour `formatTime` output
is not re-parseable at all (its minutes piece contains the AM/PM suffix),
and for negative offsets `formatTime24` emits signed fields that re-parse
to the wrong value. -/
theorem parseTime_formatTime24_roundTrip (n : Nat) :
    Lib.parseTime (Clock.formatTime24 (n : Int)) =
      some (jsRem (jsRem (n : Int) 1440 + 1440) 1440) := by
  have hh : jsRem ((n : Int) / 60) 24 = ((n / 60 % 24 : Nat) : Int) := by
    unfold jsRem
    split_ifs with hneg <;> omega
  have hm : jsRem (n : Int) 60 = ((n % 60 : Nat) : Int) := by
    unfold jsRem
    split_ifs with hneg <;> omega
  have hr : jsRem (jsRem (n : Int) 1440 + 1440) 1440 = ((n % 1440 : Nat) : Int) := by
    unfold jsRem
    split_ifs <;> omega
  unfold Clock.formatTime24
  rw [hh, hm, hr, intToString_ofNat, intToString_ofNat, parseTime_pad_pair]
  congr 1
  omega

theorem intToString_nonneg (x : Int) (h : 0 ≤ x) :
    intToString x = natToString x.toNat := by
  unfold intToString
  rw [if_neg (by omega)]

theorem natToString_length_le2 (k : Nat) (h : k < 100) :
    (natToString k).length ≤ 2 :=
  natToStringAux_length_le2 k k h (Or.inl le_rfl)

theorem jsPadStart2_length_two (k : Nat) (h : k < 100) :
    (jsPadStart2 (natToString k)).length = 2 := by
  have hne : natToString k ≠ [] := natToStringAux_ne_nil k k
  have h1 : 1 ≤ (natToString k).length := by
    cases hcase : natToString k with
    | nil => exact absurd hcase hne
    | cons a l => simp
  have h2 := natToString_length_le2 k h
  unfold jsPadStart2
  split_ifs with hlen
  · rw [List.length_append, List.length_replicate]
    omega
  · omega

/-- C10: the page formatter is total over all integers and periodic modulo
1440 — the output at `m` equals the output at the JavaScript normalization
`((m % 1440) + 1440) % 1440` — and the output is a display hour in 1..12,
a colon, a two-digit minutes field in 00..59, a space and an AM or PM
period. -/
theorem formatTime_periodic_and_shape (m : Int) :
    Page.formatTime m = Page.formatTime (jsRem (jsRem m 1440 + 1440) 1440) ∧
    (∃ dh mm : Nat, 1 ≤ dh ∧ dh ≤ 12 ∧ mm < 60 ∧
      (jsPadStart2 (natToString mm)).length = 2 ∧
      (Page.formatTime m =
          natToString dh ++ ':' :: jsPadStart2 (natToString mm) ++ [' ', 'A', 'M'] ∨
        Page.formatTime m =
          natToString dh ++ ':' :: jsPadStart2 (natToString mm) ++ [' ', 'P', 'M'])) := by
  constructor
  · have key1 : jsRem (jsRem (jsRem (jsRem m 1440 + 1440) 1440) 1440 + 1440) 1440 =
        jsRem (jsRem m 1440 + 1440) 1440 := by
      unfold jsRem
      split_ifs <;> omega
    have key2 : jsRem (jsRem (jsRem (jsRem m 1440 + 1440) 1440) 60 + 60) 60 =
        jsRem (jsRem m 60 + 60) 60 := by
      unfold jsRem
      split_ifs <;> omega
    simp only [Page.formatTime]
    rw [key1, key2]
  · have hNlo : (0 : Int) ≤ jsRem (jsRem m 1440 + 1440) 1440 := by
      unfold jsRem
      split_ifs <;> omega
    have hNhi : jsRem (jsRem m 1440 + 1440) 1440 < 1440 := by
      unfold jsRem
      split_ifs <;> omega
    have hmlo : (0 : Int) ≤ jsRem (jsRem m 60 + 60) 60 := by
      unfold jsRem
      split_ifs <;> omega
    have hmhi : jsRem (jsRem m 60 + 60) 60 < 60 := by
      unfold jsRem
      split_ifs <;> omega
    simp only [Page.formatTime]
    generalize hNg : jsRem (jsRem m 1440 + 1440) 1440 = N at hNlo hNhi ⊢
    generalize hmg : jsRem (jsRem m 60 + 60) 60 = mi at hmlo hmhi ⊢
    have hh0 : (0 : Int) ≤ N / 60 := by omega
    have hh23 : N / 60 < 24 := by omega
    set dhI : Int := if N / 60 = 0 then 12
                     else if N / 60 > 12 then N / 60 - 12 else N / 60 with hdh
    have hdhlo : 1 ≤ dhI := by
      rw [hdh]
      split_ifs <;> omega
    have hdhhi : dhI ≤ 12 := by
      rw [hdh]
      split_ifs <;> omega
    refine ⟨dhI.toNat, mi.toNat, by omega, by omega, by omega,
      jsPadStart2_length_two _ (by omega), ?_⟩
    rw [intToString_nonneg dhI (by omega), intToString_nonneg mi hmlo]
    by_cases h12 : N / 60 ≥ 12
    · right
      rw [if_pos h12]
    · left
      rw [if_neg h12]
